import Mathlib

/-!
Verification development for the HttpReq repository (a unified HTTP request
wrapper over two transport libraries). The definitions below are a shallow
embedding of the TypeScript sources in src/: JavaScript objects become
insertion-ordered association lists, JavaScript values become the inductive
type JSVal, the retry loop becomes a fuel-style recursion over an oracle of
transport outcomes, and the log-formatting pipeline is embedded at the level
of character lists. Theorems at the end settle the frozen claims.
-/

namespace HttpReqModel

/-- Model of the JavaScript values that can appear in a query object:
null, undefined, strings, (integer) numbers, booleans and arrays. -/
inductive JSVal where
  | vNull
  | vUndef
  | vStr (s : String)
  | vInt (n : Int)
  | vBool (b : Bool)
  | vArr (elems : List JSVal)

/- Default JavaScript string conversion String(value), together with the
conversion used by Array.prototype.join where null and undefined render
as the empty string. -/
mutual
def jsToString : JSVal → String
  | .vNull => "null"
  | .vUndef => "undefined"
  | .vStr s => s
  | .vInt n => toString n
  | .vBool true => "true"
  | .vBool false => "false"
  | .vArr xs => jsJoinComma xs

def jsJoinElem : JSVal → String
  | .vNull => ""
  | .vUndef => ""
  | v => jsToString v

def jsJoinComma : List JSVal → String
  | [] => ""
  | [x] => jsJoinElem x
  | x :: y :: xs => jsJoinElem x ++ "," ++ jsJoinComma (y :: xs)
end

/-- JavaScript objects with string keys are modelled as insertion-ordered
association lists whose keys are unique (as they are for every object the
source constructs). -/
abbrev JSObj := List (String × JSVal)

/-- Lookup of a key in an object (first matching entry; keys are compared
as JavaScript compares string keys, by equality). -/
def objGet : List (String × α) → String → Option α
  | [], _ => none
  | (k', v) :: rest, k => if k' = k then some v else objGet rest k

/-- JavaScript property assignment obj[k] = v (also Map.prototype.set):
updates the value in place when the key is present, otherwise appends the
entry at the end, preserving insertion order. -/
def objSet : List (String × α) → String → α → List (String × α)
  | [], k, v => [(k, v)]
  | (k', v') :: rest, k, v =>
    if k' = k then (k, v) :: rest else (k', v') :: objSet rest k v

/-- JavaScript object spread: the entries of b are assigned over a
in order, so b wins on every key collision. -/
def objSpread (a b : List (String × α)) : List (String × α) :=
  b.foldl (fun acc p => objSet acc p.1 p.2) a

/-- Model of JavaScript String.prototype.split with a non-empty string
separator: scans the character list, emitting a segment at every separator
occurrence and continuing after it. The fuel argument is the length of the
scanned list; every step consumes at least one character, so the fuel never
runs out and only keeps the recursion structural. -/
def jsSplitScan (sep : List Char) : Nat → List Char → List Char → List (List Char)
  | _, [], cur => [cur.reverse]
  | 0, l, cur => [cur.reverse ++ l]
  | f + 1, c :: cs, cur =>
    if sep.isPrefixOf (c :: cs) then
      cur.reverse :: jsSplitScan sep f (cs.drop (sep.length - 1)) []
    else
      jsSplitScan sep f cs (c :: cur)

/-- Model of str.split(sep) for the non-empty separators the source uses
(ampersand, equals sign, question mark). -/
def jsSplit (s sep : String) : List String :=
  (jsSplitScan sep.data s.data.length s.data []).map List.asString

/-- Embedding of processKeyPairs (src/src/HttpReq.ts): splits the string on
the delimiter, splits each pair on the assignment operator, and fills a Map.
The only caller passes no options, so the delimiter is a fixed ampersand and
the assignment operator a fixed equals sign. A pair with no value maps the
key to undefined, exactly as pairAr[1] is undefined in that case. -/
def processKeyPairs (str : String) : JSObj :=
  let pairs := jsSplit str "&"
  pairs.foldl
    (fun acc pairStr =>
      let pairAr := jsSplit pairStr "="
      objSet acc (pairAr.headD "")
        (match pairAr[1]? with
         | some v => JSVal.vStr v
         | none => JSVal.vUndef))
    []

/-- Embedding of mergeQueryParameters (src/src/HttpReq.ts): splits the url
on the question mark, parses the embedded query string when it is truthy,
and merges it with the caller query object by object spread, the query
object overriding url parameters. -/
def mergeQueryParameters (url : String) (queryObj : Option JSObj) : String × JSObj :=
  let parts := jsSplit url "?"
  let baseUrl := parts.headD ""
  let urlQuery : JSObj :=
    match parts[1]? with
    | some qs => if qs = "" then [] else processKeyPairs qs
    | none => []
  (baseUrl, objSpread urlQuery (queryObj.getD []))

/-- Values skipped outright by processQueryObject: null, undefined and the
empty string (strict equality with the empty string only holds for
strings). -/
def isSkippedQueryVal : JSVal → Bool
  | .vNull => true
  | .vUndef => true
  | .vStr s => s == ""
  | _ => false

/-- Embedding of processQueryObject (src/src/HttpReq.ts): iterates the keys
of the (unique-keyed) query object in order; skips null, undefined and
empty-string values; joins arrays with commas, skipping empty arrays; and
coerces every remaining value with the default string conversion. Every
value of the result is a plain string by construction. -/
def processQueryObject : JSObj → List (String × String)
  | [] => []
  | (k, v) :: rest =>
    if isSkippedQueryVal v then processQueryObject rest
    else
      match v with
      | .vArr xs =>
        if xs.length = 0 then processQueryObject rest
        else (k, jsJoinComma xs) :: processQueryObject rest
      | w => (k, jsToString w) :: processQueryObject rest

end HttpReqModel

namespace HttpReqModel

/-- Lookup after assignment at the same key. -/
lemma objGet_objSet_self (o : List (String × α)) (k : String) (v : α) :
    objGet (objSet o k v) k = some v := by
  induction o with
  | nil => simp [objSet, objGet]
  | cons p rest ih =>
    obtain ⟨k', v'⟩ := p
    by_cases h : k' = k <;> simp [objSet, h, objGet, ih]

/-- Lookup after assignment at a different key. -/
lemma objGet_objSet_ne (o : List (String × α)) (k k' : String) (v : α) (h : k' ≠ k) :
    objGet (objSet o k v) k' = objGet o k' := by
  induction o with
  | nil => simp [objSet, objGet, Ne.symm h]
  | cons p rest ih =>
    obtain ⟨k0, v0⟩ := p
    by_cases h0 : k0 = k
    · subst h0
      simp [objSet, objGet, Ne.symm h]
    · simp [objSet, h0, objGet, ih]

/-- Lookup of an absent key. -/
lemma objGet_eq_none_of_not_mem (o : List (String × α)) (k : String)
    (h : k ∉ o.map Prod.fst) : objGet o k = none := by
  induction o with
  | nil => simp [objGet]
  | cons p rest ih =>
    obtain ⟨k0, v0⟩ := p
    simp only [List.map_cons, List.mem_cons] at h
    push_neg at h
    simp [objGet, Ne.symm h.1, ih h.2]

lemma objSpread_nil (a : List (String × α)) : objSpread a [] = a := rfl

lemma objSpread_cons (a : List (String × α)) (k : String) (v : α) (b : List (String × α)) :
    objSpread a ((k, v) :: b) = objSpread (objSet a k v) b := rfl

/-- Spread lookup falls back to the left object when the right object lacks
the key. -/
lemma objGet_objSpread_none (b a : List (String × α)) (k : String)
    (h : objGet b k = none) : objGet (objSpread a b) k = objGet a k := by
  induction b generalizing a with
  | nil => simp [objSpread_nil]
  | cons p rest ih =>
    obtain ⟨k0, v0⟩ := p
    simp only [objGet] at h
    by_cases h0 : k0 = k
    · simp [h0] at h
    · rw [objSpread_cons, ih _ (by simpa [h0] using h),
        objGet_objSet_ne _ _ _ _ (Ne.symm h0)]

/-- Spread lookup prefers the right object on a key collision. -/
lemma objGet_objSpread_some (b a : List (String × α)) (k : String) (v : α)
    (hb : (b.map Prod.fst).Nodup) (h : objGet b k = some v) :
    objGet (objSpread a b) k = some v := by
  induction b generalizing a with
  | nil => simp [objGet] at h
  | cons p rest ih =>
    obtain ⟨k0, v0⟩ := p
    simp only [List.map_cons, List.nodup_cons] at hb
    simp only [objGet] at h
    by_cases h0 : k0 = k
    · subst h0
      rw [if_pos rfl] at h
      rw [objSpread_cons,
        objGet_objSpread_none _ _ _ (objGet_eq_none_of_not_mem _ _ hb.1),
        objGet_objSet_self, h]
    · rw [if_neg h0] at h
      rw [objSpread_cons]
      exact ih _ hb.2 h

/-- Entries skipped by processQueryObject leave the output unchanged. -/
lemma processQueryObject_cons_skipped (k : String) (v : JSVal) (r : JSObj)
    (h : isSkippedQueryVal v = true) :
    processQueryObject ((k, v) :: r) = processQueryObject r := by
  simp [processQueryObject, h]

/-- Array entries are joined with commas, empty arrays skipped. -/
lemma processQueryObject_cons_arr (k : String) (xs : List JSVal) (r : JSObj) :
    processQueryObject ((k, JSVal.vArr xs) :: r)
      = if xs.length = 0 then processQueryObject r
        else (k, jsJoinComma xs) :: processQueryObject r := by
  simp [processQueryObject, isSkippedQueryVal]

/-- Remaining entries are kept with the default string conversion. -/
lemma processQueryObject_cons_other (k : String) (v : JSVal) (r : JSObj)
    (h1 : isSkippedQueryVal v = false) (h2 : ∀ xs, v ≠ JSVal.vArr xs) :
    processQueryObject ((k, v) :: r) = (k, jsToString v) :: processQueryObject r := by
  cases v <;> simp_all [processQueryObject, isSkippedQueryVal]

/-- Serialization introduces no new keys. -/
lemma mem_keys_processQueryObject (q : JSObj) (k : String)
    (h : k ∈ (processQueryObject q).map Prod.fst) : k ∈ q.map Prod.fst := by
  induction q with
  | nil => simp [processQueryObject] at h
  | cons p rest ih =>
    obtain ⟨k0, v0⟩ := p
    cases v0 with
    | vNull =>
      rw [processQueryObject_cons_skipped k0 JSVal.vNull rest rfl] at h
      exact List.mem_cons_of_mem _ (ih h)
    | vUndef =>
      rw [processQueryObject_cons_skipped k0 JSVal.vUndef rest rfl] at h
      exact List.mem_cons_of_mem _ (ih h)
    | vStr s =>
      by_cases hs : s = ""
      · subst hs
        rw [processQueryObject_cons_skipped _ _ _ (by simp [isSkippedQueryVal])] at h
        exact List.mem_cons_of_mem _ (ih h)
      · rw [processQueryObject_cons_other _ _ _ (by simp [isSkippedQueryVal, hs])
          (by intro xs hxs; cases hxs)] at h
        simp only [List.map_cons, List.mem_cons] at h ⊢
        exact h.imp id ih
    | vInt n =>
      rw [processQueryObject_cons_other k0 (JSVal.vInt n) rest rfl
        (by intro xs hxs; cases hxs)] at h
      simp only [List.map_cons, List.mem_cons] at h ⊢
      exact h.imp id ih
    | vBool bb =>
      rw [processQueryObject_cons_other k0 (JSVal.vBool bb) rest rfl
        (by intro xs hxs; cases hxs)] at h
      simp only [List.map_cons, List.mem_cons] at h ⊢
      exact h.imp id ih
    | vArr xs =>
      rw [processQueryObject_cons_arr] at h
      by_cases hl : xs.length = 0
      · rw [if_pos hl] at h
        exact List.mem_cons_of_mem _ (ih h)
      · rw [if_neg hl] at h
        simp only [List.map_cons, List.mem_cons] at h ⊢
        exact h.imp id ih

end HttpReqModel

namespace HttpReqModel

/-- Keys other than the head key look through a processed head entry. -/
lemma objGet_processQueryObject_cons_ne (k0 : String) (v0 : JSVal) (r : JSObj)
    (k : String) (h0 : k0 ≠ k) :
    objGet (processQueryObject ((k0, v0) :: r)) k = objGet (processQueryObject r) k := by
  cases v0 with
  | vNull => rw [processQueryObject_cons_skipped k0 JSVal.vNull r rfl]
  | vUndef => rw [processQueryObject_cons_skipped k0 JSVal.vUndef r rfl]
  | vStr s =>
    by_cases hs : s = ""
    · subst hs
      rw [processQueryObject_cons_skipped _ _ _ (by simp [isSkippedQueryVal])]
    · rw [processQueryObject_cons_other _ _ _ (by simp [isSkippedQueryVal, hs])
        (by intro xs hxs; cases hxs)]
      simp [objGet, h0]
  | vInt n =>
    rw [processQueryObject_cons_other k0 (JSVal.vInt n) r rfl (by intro xs hxs; cases hxs)]
    simp [objGet, h0]
  | vBool bb =>
    rw [processQueryObject_cons_other k0 (JSVal.vBool bb) r rfl (by intro xs hxs; cases hxs)]
    simp [objGet, h0]
  | vArr xs =>
    rw [processQueryObject_cons_arr]
    by_cases hl : xs.length = 0
    · rw [if_pos hl]
    · rw [if_neg hl]
      simp [objGet, h0]

end HttpReqModel

namespace HttpReqClaims

open HttpReqModel

/-- C4: for every url and every caller query object (whose keys are unique,
as JavaScript object keys are), the merged query resolves every key the
query object carries to the object value — the object wins on every
collision with the url query string — and every key absent from the object
to the value parsed from the url query string; concretely, url query
a=1&b=2 merged with object b=3, c=4 yields exactly a=1, b=3, c=4, and a GET
on a url ending in ?page=1 with query object page=2 hands the transport the
single pair page=2 and nothing else. -/
theorem query_precedence_object_wins :
    (∀ (url : String) (q : JSObj) (k : String) (v : JSVal),
       (q.map Prod.fst).Nodup →
       objGet q k = some v →
       objGet (mergeQueryParameters url (some q)).2 k = some v) ∧
    (∀ (url : String) (q : JSObj) (k : String),
       objGet q k = none →
       objGet (mergeQueryParameters url (some q)).2 k
         = objGet (mergeQueryParameters url none).2 k) ∧
    (mergeQueryParameters "https://x?a=1&b=2"
        (some [("b", JSVal.vInt 3), ("c", JSVal.vInt 4)])).2
      = [("a", JSVal.vStr "1"), ("b", JSVal.vInt 3), ("c", JSVal.vInt 4)] ∧
    processQueryObject
        (mergeQueryParameters "https://api.test.com/users?page=1"
          (some [("page", JSVal.vInt 2)])).2
      = [("page", "2")] := by
  refine ⟨?_, ?_, by rfl, ?_⟩
  · intro url q k v hnod h
    exact objGet_objSpread_some q _ k v hnod h
  · intro url q k h
    exact objGet_objSpread_none q _ k h
  · show processQueryObject [("page", JSVal.vInt 2)] = [("page", "2")]
    simp [processQueryObject, isSkippedQueryVal, jsToString]
    decide

/-- Witness instantiating the query precedence theorem on the concrete
inputs named by the claim. -/
theorem query_precedence_object_wins_witness :
    (([("b", JSVal.vInt 3), ("c", JSVal.vInt 4)].map
        (Prod.fst (α := String) (β := JSVal))).Nodup) ∧
    objGet (mergeQueryParameters "https://x?a=1&b=2"
        (some [("b", JSVal.vInt 3), ("c", JSVal.vInt 4)])).2 "b" = some (JSVal.vInt 3) ∧
    objGet (mergeQueryParameters "https://x?a=1&b=2"
        (some [("b", JSVal.vInt 3), ("c", JSVal.vInt 4)])).2 "a"
      = objGet (mergeQueryParameters "https://x?a=1&b=2" none).2 "a" :=
  ⟨by decide,
   query_precedence_object_wins.1 "https://x?a=1&b=2" _ "b" _ (by decide) (by rfl),
   query_precedence_object_wins.2.1 "https://x?a=1&b=2" _ "a" (by rfl)⟩

/-- C5: serialization of a (unique-keyed) query object drops every entry
whose value is null, undefined, the empty string or an empty array; joins
the elements of every non-empty array with commas into one string; and
coerces every remaining value with the default string conversion, so that
booleans and numbers appear in their literal textual form; the output only
holds plain strings by its type. -/
theorem query_serialization_drops_and_joins :
    (∀ (q : JSObj) (k : String) (v : JSVal),
       (q.map Prod.fst).Nodup →
       objGet q k = some v →
       ((isSkippedQueryVal v = true → objGet (processQueryObject q) k = none) ∧
        (∀ xs, v = JSVal.vArr xs →
           objGet (processQueryObject q) k
             = if xs.length = 0 then none else some (jsJoinComma xs)) ∧
        (isSkippedQueryVal v = false → (∀ xs, v ≠ JSVal.vArr xs) →
           objGet (processQueryObject q) k = some (jsToString v)))) ∧
    processQueryObject [("tags", JSVal.vArr [JSVal.vStr "x", JSVal.vStr "y"])]
      = [("tags", "x,y")] ∧
    processQueryObject [("tags", JSVal.vArr [])] = [] ∧
    processQueryObject [("a", JSVal.vNull), ("b", JSVal.vUndef), ("c", JSVal.vStr ""),
        ("t", JSVal.vBool true), ("f", JSVal.vBool false), ("z", JSVal.vInt 0)]
      = [("t", "true"), ("f", "false"), ("z", "0")] := by
  refine ⟨?_, ?_, by rfl, ?_⟩
  case refine_2 =>
    simp [processQueryObject, isSkippedQueryVal, jsJoinComma, jsJoinElem, jsToString]
  case refine_3 =>
    simp [processQueryObject, isSkippedQueryVal, jsToString]
    decide
  intro q
  induction q with
  | nil => intro k v _ h; simp [objGet] at h
  | cons p rest ih =>
    obtain ⟨k0, v0⟩ := p
    intro k v hnod h
    simp only [List.map_cons, List.nodup_cons] at hnod
    simp only [objGet] at h
    by_cases h0 : k0 = k
    · subst h0
      rw [if_pos rfl] at h
      injection h with hv
      subst hv
      have habsent : objGet (processQueryObject rest) k0 = none := by
        apply objGet_eq_none_of_not_mem
        intro hmem
        exact hnod.1 (mem_keys_processQueryObject _ _ hmem)
      refine ⟨?_, ?_, ?_⟩
      · intro hskip
        rw [processQueryObject_cons_skipped _ _ _ hskip]
        exact habsent
      · intro xs hxs
        subst hxs
        rw [processQueryObject_cons_arr]
        by_cases hl : xs.length = 0
        · rw [if_pos hl, if_pos hl]
          exact habsent
        · rw [if_neg hl, if_neg hl]
          simp [objGet]
      · intro hns hna
        rw [processQueryObject_cons_other _ _ _ hns hna]
        simp [objGet]
    · rw [if_neg h0] at h
      rw [objGet_processQueryObject_cons_ne _ _ _ _ h0]
      exact ih k v hnod.2 h

/-- Witness instantiating the serialization theorem on concrete entries:
a non-empty array joins to one comma string and a null entry is dropped. -/
theorem query_serialization_drops_and_joins_witness :
    ((([("tags", JSVal.vArr [JSVal.vStr "x", JSVal.vStr "y"]), ("gone", JSVal.vNull)] : JSObj).map
        Prod.fst).Nodup) ∧
    objGet (processQueryObject
        [("tags", JSVal.vArr [JSVal.vStr "x", JSVal.vStr "y"]), ("gone", JSVal.vNull)]) "gone"
      = none ∧
    objGet (processQueryObject
        [("tags", JSVal.vArr [JSVal.vStr "x", JSVal.vStr "y"]), ("gone", JSVal.vNull)]) "tags"
      = some "x,y" :=
  ⟨by decide,
   (query_serialization_drops_and_joins.1 _ "gone" JSVal.vNull (by decide) (by rfl)).1 rfl,
   ((query_serialization_drops_and_joins.1 _ "tags"
       (JSVal.vArr [JSVal.vStr "x", JSVal.vStr "y"]) (by decide) (by rfl)).2.1
      [JSVal.vStr "x", JSVal.vStr "y"] rfl).trans
     (by simp [jsJoinComma, jsJoinElem, jsToString])⟩

end HttpReqClaims

namespace HttpReqModel

/-- Model of a thrown JavaScript error value as the dispatchers see it: an
optional string code property and a message string (every thrown Error has
a message; a code property may be absent). -/
structure ErrObj where
  code : Option String
  message : String
deriving DecidableEq

/-- Argument of isValidRetryErr: either a bare string code or an error-like
object. -/
inductive ErrInput where
  | str (s : String)
  | obj (e : ErrObj)
deriving DecidableEq

/-- The fixed whitelist of retryable network error codes shared by both
client implementations (src/src/HttpReq.ts). -/
def validRetryErrs : List String :=
  ["ECONNREFUSED", "ECONNRESET", "ETIMEDOUT", "EADDRINFO", "ESOCKETTIMEDOUT"]

/-- Embedding of SuperagentHttpClient.isValidRetryErr (src/src/HttpReq.ts
lines 439-451): a string argument is compared directly; for an object the
code property is used whenever it is not nullish, otherwise the message. -/
def superagentIsValidRetryErr : ErrInput → Bool
  | .str s => validRetryErrs.contains s
  | .obj e => validRetryErrs.contains (e.code.getD e.message)

/-- Embedding of AxiosHttpClient.isValidRetryErr (src/src/HttpReq.ts lines
578-599): a string argument is compared directly; for an object the code
property is used only when it is present and truthy (a present empty-string
code is falsy and falls back to the message). -/
def axiosIsValidRetryErr : ErrInput → Bool
  | .str s => validRetryErrs.contains s
  | .obj e =>
    match e.code with
    | some c => if c ≠ "" then validRetryErrs.contains c else validRetryErrs.contains e.message
    | none => validRetryErrs.contains e.message

/-- The string the specification says classifyError examines: the code when
one is present, otherwise the message. Modelled from the words of the spec
for comparison with the two implementations. -/
def specExamined : ErrInput → String
  | .str s => s
  | .obj e => e.code.getD e.message

/-- The classifier the specification describes: true exactly when the
examined string is one of the five whitelisted codes. Modelled from the
words of the spec. -/
def specClassify (x : ErrInput) : Bool :=
  validRetryErrs.contains (specExamined x)

/-- Outcome of one underlying transport invocation, as the awaited promise
presents it to the retry loop: it either throws an error value or resolves
with an HTTP status (per the configured ok and validateStatus callbacks
only statuses below 600 resolve). -/
inductive Outcome where
  | throwErr (e : ErrObj)
  | resolve (status : Nat)
deriving DecidableEq

/-- Observable outcome of one dispatch: the settled result (the propagated
error or the resolved status), the number of underlying transport
invocations made, and the number of logger invocations. -/
structure DispatchResult where
  result : Except ErrObj Nat
  invocations : Nat
  logCount : Nat

/-- Embedding of the retry loop shared by SuperagentHttpClient.send and
AxiosHttpClient.send (src/src/HttpReq.ts lines 476-521 and 636-646): for
attempt = 0..3, invoke the transport once; on resolution, log once and
return the response; on a thrown error, retry when attempt is below 3 and
the classifier accepts the error, otherwise rethrow the error object
unchanged. The two clients differ only in how the catch block calls the
classifier, so the classifier is a parameter. The counter r is the number
of loop iterations still allowed (attempt + r = 4 at every call); the r = 0
case is the unreachable fall-through after the loop. -/
def sendLoop (classify : ErrObj → Bool) (failMsg : String) (oracle : Nat → Outcome) :
    Nat → Nat → DispatchResult
  | attempt, 0 => ⟨.error ⟨none, failMsg⟩, attempt, 0⟩
  | attempt, r + 1 =>
    match oracle attempt with
    | .resolve s => ⟨.ok s, attempt + 1, 1⟩
    | .throwErr e =>
      if attempt < 3 ∧ classify e then sendLoop classify failMsg oracle (attempt + 1) r
      else ⟨.error e, attempt + 1, 0⟩

/-- The catch block of SuperagentHttpClient.send passes the string
typedError.code ?? typedError.message to the classifier. -/
def superagentSend (oracle : Nat → Outcome) : DispatchResult :=
  sendLoop (fun e => superagentIsValidRetryErr (.str (e.code.getD e.message)))
    "Request failed after all retries" oracle 0 4

/-- The catch block of AxiosHttpClient.send passes the error object itself
to the classifier. The fall-through message stands for the crash on the
non-null assertion after the loop, which is unreachable. -/
def axiosSend (oracle : Nat → Outcome) : DispatchResult :=
  sendLoop (fun e => axiosIsValidRetryErr (.obj e))
    "response is not assigned" oracle 0 4

/-- A member of the retry whitelist is never the empty string. -/
lemma mem_validRetryErrs_ne_empty (c : String) (h : validRetryErrs.contains c = true) :
    c ≠ "" := by
  intro hc
  subst hc
  simp [validRetryErrs] at h

/-- The loop resolves at the first successful attempt, with one invocation
per preceding retryable failure. -/
lemma sendLoop_succeeds (classify : ErrObj → Bool) (failMsg : String)
    (oracle : Nat → Outcome) (k s : Nat)
    (hsucc : oracle k = .resolve s)
    (hfail : ∀ i, i < k → ∃ e, oracle i = .throwErr e ∧ classify e = true) :
    ∀ r attempt, attempt + r = 4 → attempt ≤ k → k ≤ 3 →
      sendLoop classify failMsg oracle attempt r = ⟨.ok s, k + 1, 1⟩ := by
  intro r
  induction r with
  | zero => intro attempt h4 hak hk3; omega
  | succ r ih =>
    intro attempt h4 hak hk3
    by_cases hk : attempt = k
    · subst hk
      simp [sendLoop, hsucc]
    · obtain ⟨e, he, hce⟩ := hfail attempt (by omega)
      have h3 : attempt < 3 := by omega
      simp only [sendLoop, he, h3, hce, and_self, if_true, true_and]
      exact ih (attempt + 1) (by omega) (by omega) hk3

/-- When every attempt up to index 3 fails with a classifier-accepted
error, the loop stops after the fourth invocation and rethrows the error
of attempt 3. -/
lemma sendLoop_exhausts (classify : ErrObj → Bool) (failMsg : String)
    (oracle : Nat → Outcome) (k : Nat) (hk : 4 ≤ k)
    (hfail : ∀ i, i < k → ∃ e, oracle i = .throwErr e ∧ classify e = true) :
    ∀ r attempt, attempt + r = 4 → 1 ≤ r →
      ∃ e, oracle 3 = .throwErr e ∧
        sendLoop classify failMsg oracle attempt r = ⟨.error e, 4, 0⟩ := by
  intro r
  induction r with
  | zero => intro attempt _ h1; omega
  | succ r ih =>
    intro attempt h4 _
    by_cases h3 : attempt = 3
    · subst h3
      obtain ⟨e, he, hce⟩ := hfail 3 (by omega)
      refine ⟨e, he, ?_⟩
      simp [sendLoop, he]
    · have hlt : attempt < 3 := by omega
      obtain ⟨e, he, hce⟩ := hfail attempt (by omega)
      have := ih (attempt + 1) (by omega) (by omega)
      obtain ⟨e3, he3, hres⟩ := this
      refine ⟨e3, he3, ?_⟩
      simp only [sendLoop, he, hlt, hce, and_self, if_true, true_and]
      exact hres

/-- Whatever the oracle does, the loop entered with attempt + r = 4 and at
least one permitted iteration either rethrows exactly the error thrown by
its last invocation with no log line, or resolves with exactly one log
line. -/
lemma sendLoop_invariants (classify : ErrObj → Bool) (failMsg : String)
    (oracle : Nat → Outcome) :
    ∀ r attempt, attempt + r = 4 → 1 ≤ r →
      ((∀ e, (sendLoop classify failMsg oracle attempt r).result = .error e →
          (sendLoop classify failMsg oracle attempt r).logCount = 0 ∧
          oracle ((sendLoop classify failMsg oracle attempt r).invocations - 1)
            = .throwErr e) ∧
       (∀ s, (sendLoop classify failMsg oracle attempt r).result = .ok s →
          (sendLoop classify failMsg oracle attempt r).logCount = 1 ∧
          oracle ((sendLoop classify failMsg oracle attempt r).invocations - 1)
            = .resolve s)) := by
  intro r
  induction r with
  | zero => intro attempt _ h1; omega
  | succ r ih =>
    intro attempt h4 _
    cases ho : oracle attempt with
    | resolve s =>
      constructor
      · intro e he
        simp [sendLoop, ho] at he
      · intro s0 hs0
        simp only [sendLoop, ho] at hs0 ⊢
        obtain rfl : s = s0 := by simpa using hs0
        simp [ho]
    | throwErr e =>
      by_cases hretry : attempt < 3 ∧ classify e = true
      · have hr1 : 1 ≤ r := by omega
        have heq : sendLoop classify failMsg oracle attempt (r + 1)
            = sendLoop classify failMsg oracle (attempt + 1) r := by
          simp [sendLoop, ho, hretry]
        rw [heq]
        exact ih (attempt + 1) (by omega) hr1
      · have heq : sendLoop classify failMsg oracle attempt (r + 1)
            = ⟨.error e, attempt + 1, 0⟩ := by
          simp [sendLoop, ho, hretry]
        rw [heq]
        constructor
        · intro e0 he0
          obtain rfl : e = e0 := by simpa using he0
          simpa using ho
        · intro s0 hs0
          simp at hs0
end HttpReqModel

namespace HttpReqClaims

open HttpReqModel

/-- C1: for every dispatched request whose transport fails with a retryable
network error code exactly k times and then resolves, both clients succeed
after exactly k + 1 underlying invocations when k is at most 3, and when k
is at least 4 both clients fail after exactly 4 invocations (1 initial plus
3 retries), never invoking the transport a fifth time, rethrowing the error
of the fourth attempt. -/
theorem retry_bound (oracle : Nat → Outcome) (k s : Nat)
    (hfail : ∀ i, i < k → ∃ e c, oracle i = Outcome.throwErr e ∧
       e.code = some c ∧ validRetryErrs.contains c = true)
    (hsucc : oracle k = Outcome.resolve s) :
    (k ≤ 3 → superagentSend oracle = ⟨.ok s, k + 1, 1⟩ ∧
       axiosSend oracle = ⟨.ok s, k + 1, 1⟩) ∧
    (4 ≤ k → ∃ e, oracle 3 = Outcome.throwErr e ∧
       superagentSend oracle = ⟨.error e, 4, 0⟩ ∧
       axiosSend oracle = ⟨.error e, 4, 0⟩) := by
  have hS : ∀ i, i < k → ∃ e, oracle i = Outcome.throwErr e ∧
      (fun e => superagentIsValidRetryErr (.str (e.code.getD e.message))) e = true := by
    intro i hi
    obtain ⟨e, c, he, hc, hm⟩ := hfail i hi
    refine ⟨e, he, ?_⟩
    show superagentIsValidRetryErr (.str (e.code.getD e.message)) = true
    have hgd : e.code.getD e.message = c := by simp [hc]
    rw [hgd]
    exact hm
  have hA : ∀ i, i < k → ∃ e, oracle i = Outcome.throwErr e ∧
      (fun e => axiosIsValidRetryErr (.obj e)) e = true := by
    intro i hi
    obtain ⟨e, c, he, hc, hm⟩ := hfail i hi
    refine ⟨e, he, ?_⟩
    show axiosIsValidRetryErr (.obj e) = true
    simp only [axiosIsValidRetryErr, hc]
    rw [if_pos (mem_validRetryErrs_ne_empty c hm)]
    exact hm
  constructor
  · intro hk3
    exact ⟨sendLoop_succeeds _ _ oracle k s hsucc hS 4 0 rfl (by omega) hk3,
           sendLoop_succeeds _ _ oracle k s hsucc hA 4 0 rfl (by omega) hk3⟩
  · intro hk4
    obtain ⟨e1, he1, hr1⟩ := sendLoop_exhausts _ "Request failed after all retries" oracle k hk4 hS 4 0 rfl (by omega)
    obtain ⟨e2, he2, hr2⟩ := sendLoop_exhausts _ "response is not assigned" oracle k hk4 hA 4 0 rfl (by omega)
    rw [he1] at he2
    injection he2 with hee
    subst hee
    exact ⟨e1, he1, hr1, hr2⟩

/-- Witness for the retry bound: a transport failing twice with ECONNRESET
and then resolving 200 makes both clients succeed with 3 invocations. -/
theorem retry_bound_witness :
    superagentSend (fun i => if i < 2 then Outcome.throwErr ⟨some "ECONNRESET", "socket hang up"⟩
        else Outcome.resolve 200) = ⟨.ok 200, 3, 1⟩ ∧
    axiosSend (fun i => if i < 2 then Outcome.throwErr ⟨some "ECONNRESET", "socket hang up"⟩
        else Outcome.resolve 200) = ⟨.ok 200, 3, 1⟩ :=
  (retry_bound _ 2 200
    (fun i hi => ⟨⟨some "ECONNRESET", "socket hang up"⟩, "ECONNRESET",
       by rw [if_pos hi], rfl, by decide⟩)
    (by rfl)).1 (by omega)

/-- C2: a transport that resolves with any HTTP status (any value the
configured callbacks let resolve, in particular all of 100 to 599 including
4xx and 5xx) is a success at this layer for both clients: exactly one
underlying invocation, no retry, and the call resolves with a result
carrying that status instead of rejecting. -/
theorem status_result_never_retried (oracle : Nat → Outcome) (s : Nat)
    (h0 : oracle 0 = Outcome.resolve s) (hlo : 100 ≤ s) (hhi : s ≤ 599) :
    superagentSend oracle = ⟨.ok s, 1, 1⟩ ∧ axiosSend oracle = ⟨.ok s, 1, 1⟩ := by
  constructor <;> simp [superagentSend, axiosSend, sendLoop, h0]

/-- Witness for the status theorem: a transport resolving 500 yields a
success result with status 500 after one invocation for both clients. -/
theorem status_result_never_retried_witness :
    100 ≤ 500 ∧ 500 ≤ 599 ∧
    (superagentSend (fun _ => Outcome.resolve 500) = ⟨.ok 500, 1, 1⟩ ∧
     axiosSend (fun _ => Outcome.resolve 500) = ⟨.ok 500, 1, 1⟩) :=
  ⟨by omega, by omega,
   status_result_never_retried (fun _ => Outcome.resolve 500) 500 rfl (by omega) (by omega)⟩

/-- C3 counterexample: the claim says the classifier examines the code
whenever one is present and returns true exactly when the examined string
is whitelisted; on the error object with present empty code and message
ETIMEDOUT the axios classifier returns true although the examined code is
not whitelisted, so the claim as stated is false for the axios
implementation. -/
theorem classify_claim_counterexample :
    axiosIsValidRetryErr (.obj ⟨some "", "ETIMEDOUT"⟩) = true ∧
    specClassify (.obj ⟨some "", "ETIMEDOUT"⟩) = false := by
  constructor <;> rfl

/-- C3 amended: the superagent classifier agrees with the spec predicate
(code when present, else message, compared against the five codes) on every
input; the axios classifier agrees whenever the code is not the present
empty string, and falls back to the message when the code is the present
empty string; ENOTFOUND is classified non-retryable by both; and a
non-retryable first error is propagated by the dispatcher after exactly one
invocation with no retry, even though retries remain. -/
theorem classify_amended :
    (∀ x : ErrInput, superagentIsValidRetryErr x = specClassify x) ∧
    (∀ e : ErrObj, e.code ≠ some "" →
       axiosIsValidRetryErr (.obj e) = specClassify (.obj e)) ∧
    (∀ s : String, axiosIsValidRetryErr (.str s) = specClassify (.str s)) ∧
    (∀ e : ErrObj, e.code = some "" →
       axiosIsValidRetryErr (.obj e) = validRetryErrs.contains e.message) ∧
    (superagentIsValidRetryErr (.str "ENOTFOUND") = false ∧
     axiosIsValidRetryErr (.str "ENOTFOUND") = false) ∧
    (∀ (oracle : Nat → Outcome) (e : ErrObj),
       oracle 0 = Outcome.throwErr e →
       superagentIsValidRetryErr (.str (e.code.getD e.message)) = false →
       superagentSend oracle = ⟨.error e, 1, 0⟩) ∧
    (∀ (oracle : Nat → Outcome) (e : ErrObj),
       oracle 0 = Outcome.throwErr e →
       axiosIsValidRetryErr (.obj e) = false →
       axiosSend oracle = ⟨.error e, 1, 0⟩) := by
  refine ⟨?_, ?_, ?_, ?_, ⟨rfl, rfl⟩, ?_, ?_⟩
  · intro x
    cases x <;> rfl
  · intro e hne
    cases hc : e.code with
    | none => simp [axiosIsValidRetryErr, specClassify, specExamined, hc]
    | some c =>
      have hcne : c ≠ "" := by
        intro h
        exact hne (by rw [hc, h])
      simp [axiosIsValidRetryErr, specClassify, specExamined, hc, hcne]
  · intro s
    rfl
  · intro e hc
    simp [axiosIsValidRetryErr, hc]
  · intro oracle e h0 hf
    simp [superagentSend, sendLoop, h0, hf]
  · intro oracle e h0 hf
    simp [axiosSend, sendLoop, h0, hf]

/-- Witness for the amended classifier claim: an ENOTFOUND error thrown at
the first attempt is propagated by both clients after one invocation. -/
theorem classify_amended_witness :
    superagentSend (fun _ => Outcome.throwErr ⟨some "ENOTFOUND", "getaddrinfo failed"⟩)
      = ⟨.error ⟨some "ENOTFOUND", "getaddrinfo failed"⟩, 1, 0⟩ ∧
    axiosSend (fun _ => Outcome.throwErr ⟨some "ENOTFOUND", "getaddrinfo failed"⟩)
      = ⟨.error ⟨some "ENOTFOUND", "getaddrinfo failed"⟩, 1, 0⟩ :=
  ⟨classify_amended.2.2.2.2.2.1 _ _ rfl (by decide),
   classify_amended.2.2.2.2.2.2 _ _ rfl (by decide)⟩

/-- C7: whenever a dispatch terminates in failure the settled error is
exactly the object thrown by the last transport invocation (a caller
inspecting its code sees the original code) and the logger sink is never
invoked; on a successful dispatch the logger sink is invoked exactly once.
Holds for both clients. -/
theorem failure_propagation_and_logging (oracle : Nat → Outcome) :
    (∀ e, (superagentSend oracle).result = .error e →
        (superagentSend oracle).logCount = 0 ∧
        oracle ((superagentSend oracle).invocations - 1) = Outcome.throwErr e) ∧
    (∀ s, (superagentSend oracle).result = .ok s →
        (superagentSend oracle).logCount = 1) ∧
    (∀ e, (axiosSend oracle).result = .error e →
        (axiosSend oracle).logCount = 0 ∧
        oracle ((axiosSend oracle).invocations - 1) = Outcome.throwErr e) ∧
    (∀ s, (axiosSend oracle).result = .ok s →
        (axiosSend oracle).logCount = 1) := by
  have hs := sendLoop_invariants
    (fun e => superagentIsValidRetryErr (.str (e.code.getD e.message)))
    "Request failed after all retries" oracle 4 0 rfl (by omega)
  have ha := sendLoop_invariants
    (fun e => axiosIsValidRetryErr (.obj e))
    "response is not assigned" oracle 4 0 rfl (by omega)
  exact ⟨hs.1, fun s h => (hs.2 s h).1, ha.1, fun s h => (ha.2 s h).1⟩

/-- Witness for the failure and logging theorem: a client failing on a
non-retryable error logs nothing, and a client resolving 204 logs once. -/
theorem failure_propagation_and_logging_witness :
    (superagentSend (fun _ => Outcome.throwErr ⟨some "ENOTFOUND", "nf"⟩)).logCount = 0 ∧
    (axiosSend (fun _ => Outcome.resolve 204)).logCount = 1 :=
  ⟨((failure_propagation_and_logging
      (fun _ => Outcome.throwErr ⟨some "ENOTFOUND", "nf"⟩)).1
      ⟨some "ENOTFOUND", "nf"⟩ (by rfl)).1,
   (failure_propagation_and_logging (fun _ => Outcome.resolve 204)).2.2.2 204 (by rfl)⟩

end HttpReqClaims

namespace HttpReqModel

/-- Marker for the logger sink an HttpReq instance ends up with: the global
console.log default or a caller-supplied function (identified by an index,
since the sink itself is an external collaborator). -/
inductive LoggerChoice where
  | consoleLog
  | custom (id : Nat)
deriving DecidableEq

/-- The HttpClientType enum of src/src/HttpReq.ts, whose members are the
strings axios and superagent. -/
inductive HttpClientType where
  | axios
  | superagent
deriving DecidableEq

/-- String value of an enum member. -/
def httpClientTypeStr : HttpClientType → String
  | .axios => "axios"
  | .superagent => "superagent"

/-- Which client implementation the constructor instantiates. -/
inductive ClientImpl where
  | axiosHttpClient
  | superagentHttpClient
deriving DecidableEq

/-- Constructor options: both fields optional. -/
structure HttpReqOptions where
  logger : Option LoggerChoice
  clientType : Option HttpClientType

/-- State of a constructed HttpReq instance. -/
structure HttpReqState where
  logger : LoggerChoice
  clientType : HttpClientType
  httpClient : ClientImpl
deriving DecidableEq

/-- Embedding of the HttpReq constructor (src/src/HttpReq.ts lines 147-156):
the logger defaults to console.log, the client type to AXIOS, and the
AxiosHttpClient is instantiated exactly when the resolved type is AXIOS. -/
def httpReqConstruct (options : HttpReqOptions) : HttpReqState :=
  let logger := options.logger.getD .consoleLog
  let clientType := options.clientType.getD .axios
  ⟨logger, clientType,
   if clientType = HttpClientType.axios then .axiosHttpClient else .superagentHttpClient⟩

/-- Embedding of HttpReq.getClientType (lines 169-171): returns the enum
member, whose runtime value is its string. -/
def getClientType (st : HttpReqState) : String :=
  httpClientTypeStr st.clientType

/-- The actionable message both lazy loaders and both adapter constructors
build when require fails: the library name, the npm install remedy, and the
original error message. -/
def missingDepMessage (lib origMsg : String) : String :=
  lib ++ " is required but not found. Please install it with: npm install " ++ lib
    ++ "\nOriginal error: " ++ origMsg

/-- Embedding of the SuperagentHttpClient constructor (src/src/HttpReq.ts
lines 392-394): it only stores the logger; the request handle starts null
and no load is attempted, so construction never throws regardless of
whether the library can be loaded (the loader parameter models what require
would do). -/
def superagentHttpClientConstruct (_loader : Except String Unit) :
    Except String (Option Unit) :=
  Except.ok none

/-- Embedding of SuperagentHttpClient.getRequest (src/src/HttpReq.ts lines
398-412), reached on the first request: requires superagent and wraps a
load failure in the actionable message. -/
def superagentGetRequest (loader : Except String Unit) (st : Option Unit) :
    Except String Unit :=
  match st with
  | some lib => .ok lib
  | none =>
    match loader with
    | .ok lib => .ok lib
    | .error msg => .error (missingDepMessage "superagent" msg)

/-- Embedding of the SuperagentAdapter constructor
(src/src/SuperagentAdapter.ts lines 201-213): requires superagent
immediately, for fail-fast behavior, and throws the actionable message when
the load fails. -/
def superagentAdapterConstruct (loader : Except String Unit) : Except String Unit :=
  match loader with
  | .ok lib => .ok lib
  | .error msg => .error (missingDepMessage "superagent" msg)

/-- An infix of the left part is an infix of the concatenation. -/
lemma infix_append_of_left (x a b : List Char) (h : x <:+: a) : x <:+: a ++ b := by
  obtain ⟨s, t, hst⟩ := h
  exact ⟨s, t ++ b, by rw [← hst]; simp⟩

/-- The right part is an infix of the concatenation. -/
lemma infix_append_self (a m : List Char) : m <:+: a ++ m :=
  ⟨a, [], by simp⟩

end HttpReqModel

namespace HttpReqClaims

open HttpReqModel

/-- C10: constructed with no options, HttpReq resolves its defaults to the
axios client with console.log as the logger sink, instantiates the axios
implementation, and getClientType returns the string axios. -/
theorem default_construction_axios_consolelog :
    httpReqConstruct ⟨none, none⟩
      = ⟨LoggerChoice.consoleLog, HttpClientType.axios, ClientImpl.axiosHttpClient⟩ ∧
    getClientType (httpReqConstruct ⟨none, none⟩) = "axios" :=
  ⟨rfl, rfl⟩

/-- C8 counterexample: with a failing loader, construction of the
SuperagentHttpClient used by HttpReq succeeds without throwing, and the
dependency failure only surfaces at the first request, so the claim that
adapter construction itself throws and the failure is never deferred to the
first request is false for this client. -/
theorem adapter_failfast_counterexample :
    superagentHttpClientConstruct (.error "Cannot find module superagent") = .ok none ∧
    superagentGetRequest (.error "Cannot find module superagent") none
      = .error (missingDepMessage "superagent" "Cannot find module superagent") :=
  ⟨rfl, rfl⟩

/-- C8 amended: the SuperagentAdapter constructor does fail fast at
construction time with a message carrying the library name, the install
remedy and the original error message; the SuperagentHttpClient inside
HttpReq instead defers the load to the first request, where the same
actionable message is thrown. -/
theorem adapter_failfast_amended (origMsg : String) :
    superagentAdapterConstruct (.error origMsg)
      = .error (missingDepMessage "superagent" origMsg) ∧
    "superagent".data <:+: (missingDepMessage "superagent" origMsg).data ∧
    "install".data <:+: (missingDepMessage "superagent" origMsg).data ∧
    origMsg.data <:+: (missingDepMessage "superagent" origMsg).data ∧
    superagentHttpClientConstruct (.error origMsg) = .ok none ∧
    superagentGetRequest (.error origMsg) none
      = .error (missingDepMessage "superagent" origMsg) := by
  have hsplit : missingDepMessage "superagent" origMsg
      = "superagent is required but not found. Please install it with: npm install superagent\nOriginal error: "
        ++ origMsg := rfl
  have hdata : (missingDepMessage "superagent" origMsg).data
      = ("superagent is required but not found. Please install it with: npm install superagent\nOriginal error: ").data
        ++ origMsg.data := by
    rw [hsplit, String.data_append]
  refine ⟨rfl, ?_, ?_, ?_, rfl, rfl⟩
  · rw [hdata]
    exact infix_append_of_left _ _ _
      ⟨[], (" is required but not found. Please install it with: npm install superagent\nOriginal error: ").data,
       by decide⟩
  · rw [hdata]
    exact infix_append_of_left _ _ _
      ⟨("superagent is required but not found. Please ").data,
       (" it with: npm install superagent\nOriginal error: ").data, by decide⟩
  · rw [hdata]
    exact infix_append_self _ _

/-- Witness for the amended fail-fast claim at a concrete original error
message. -/
theorem adapter_failfast_amended_witness :
    superagentAdapterConstruct (.error "Cannot find module superagent")
      = .error (missingDepMessage "superagent" "Cannot find module superagent") ∧
    "install".data
      <:+: (missingDepMessage "superagent" "Cannot find module superagent").data :=
  ⟨(adapter_failfast_amended "Cannot find module superagent").1,
   (adapter_failfast_amended "Cannot find module superagent").2.2.1⟩

end HttpReqClaims

namespace HttpReqModel

/-- Lowercase hex digit of a value below 16, as JSON.stringify renders
unicode escapes. -/
def hexDigit (n : Nat) : Char :=
  if n < 10 then Char.ofNat (48 + n) else Char.ofNat (87 + n)

/-- Model of the escaping JSON.stringify applies inside a string value:
quote, backslash and control characters are escaped, everything else is
copied through. -/
def jsonEscapeChar (c : Char) : List Char :=
  if c = '"' then ['\\', '"']
  else if c = '\\' then ['\\', '\\']
  else if c = '\x08' then ['\\', 'b']
  else if c = '\t' then ['\\', 't']
  else if c = '\n' then ['\\', 'n']
  else if c = '\x0c' then ['\\', 'f']
  else if c = '\r' then ['\\', 'r']
  else if c.toNat < 32 then ['\\', 'u', '0', '0', hexDigit (c.toNat / 16), hexDigit (c.toNat % 16)]
  else [c]

/-- JSON escaping of a whole string. -/
def jsonEscape (s : String) : String :=
  ⟨(s.data.map jsonEscapeChar).flatten⟩

/-- A JSON string literal. -/
def jsonQuote (s : String) : String :=
  "\"" ++ jsonEscape s ++ "\""

/-- Joins strings with a separator (the behavior of Array.prototype.join
on strings). -/
def joinSep (sep : String) : List String → String
  | [] => ""
  | [x] => x
  | x :: y :: xs => x ++ sep ++ joinSep sep (y :: xs)

/-- Model of JSON.stringify(obj, null, 4) for a flat object whose values
are strings: the empty object renders as two braces, otherwise one
four-space-indented key-value line per entry. -/
def jsonStringifyFlat4 (o : List (String × String)) : String :=
  match o with
  | [] => "\x7b\x7d"
  | _ =>
    "\x7b\n"
      ++ joinSep ",\n" (o.map (fun kv => "    " ++ jsonQuote kv.1 ++ ": " ++ jsonQuote kv.2))
      ++ "\n\x7d"

/-- Model of the global replacement of regexBracesQuotesCommas (formatRsp):
at each position the alternation removes an opening brace followed by a
newline, a double quote, a comma, or a newline followed by a closing brace,
and otherwise keeps the character. -/
def stripPunctAux : List Char → List Char
  | [] => []
  | '{' :: '\n' :: rest => stripPunctAux rest
  | '"' :: rest => stripPunctAux rest
  | ',' :: rest => stripPunctAux rest
  | '\n' :: '}' :: rest => stripPunctAux rest
  | c :: rest => c :: stripPunctAux rest

/-- Characters matched by the regex class backslash-s. -/
def isJsWS (c : Char) : Bool :=
  c == ' ' || c == '\t' || c == '\n' || c == '\r' || c == '\x0b' || c == '\x0c' || c == '\xa0'

/-- Case-insensitive literal match: consumes the pattern from the front of
the input and returns the rest, or none. -/
def ciMatch : List Char → List Char → Option (List Char)
  | [], s => some s
  | _ :: _, [] => none
  | p :: ps, c :: cs => if p.toLower = c.toLower then ciMatch ps cs else none

/-- Matcher for the regexes of the shape Authorization, colon, optional
whitespace, scheme word, rest of line (flags g and i), at one position:
returns the continuation after the whole match (the greedy dot-star stops
at the next newline), or none. The whitespace run is maximal, which agrees
with the regex since the scheme word cannot start with whitespace. -/
def matchAuthScheme (scheme : List Char) (l : List Char) : Option (List Char) :=
  match ciMatch "authorization:".data l with
  | none => none
  | some r =>
    match ciMatch scheme (r.dropWhile isJsWS) with
    | none => none
    | some r2 => some (r2.dropWhile (fun c => c != '\n'))

/-- Matcher for the adapter regex Authorization, colon, optional
whitespace, rest of line (flags g and i), which matches any value. -/
def matchAuthAny (l : List Char) : Option (List Char) :=
  (ciMatch "authorization:".data l).map
    (fun r => (r.dropWhile isJsWS).dropWhile (fun c => c != '\n'))

/-- Matcher for the regex verification-token, colon, one whitespace
character, rest of line (flags g and i). -/
def matchVerifToken (l : List Char) : Option (List Char) :=
  match ciMatch "verification-token:".data l with
  | none => none
  | some r =>
    match r with
    | [] => none
    | w :: r2 => if isJsWS w then some (r2.dropWhile (fun c => c != '\n')) else none

/-- Global regex replacement: scans left to right; at a match the
replacement is emitted and scanning continues at the continuation the
matcher returns; otherwise the character is kept. The fuel is the input
length, which suffices because every matcher above consumes at least one
character, so the zero-fuel fallback is never reached from scanReplace. -/
def scanReplaceFuel (m : List Char → Option (List Char)) (repl : List Char) :
    Nat → List Char → List Char
  | fuel, l =>
    match l with
    | [] => []
    | c :: cs =>
      match fuel with
      | 0 => c :: cs
      | f + 1 =>
        match m (c :: cs) with
        | some rest => repl ++ scanReplaceFuel m repl f rest
        | none => c :: scanReplaceFuel m repl f cs

/-- String-level global replacement. -/
def scanReplace (m : List Char → Option (List Char)) (repl s : String) : String :=
  ⟨scanReplaceFuel m repl.data s.data.length s.data⟩

/-- Embedding of the redaction sequence of formatRsp in src/src/HttpReq.ts
(lines 715-761): the Basic rule, then the Bearer rule, then the
verification-token rule. -/
def redactHeadersHttpReq (s : String) : String :=
  scanReplace matchVerifToken "verification-token: TOKEN HIDDEN"
    (scanReplace (matchAuthScheme "bearer".data) "Authorization: Bearer TOKEN HIDDEN"
      (scanReplace (matchAuthScheme "basic".data) "Authorization: Basic TOKEN HIDDEN" s))

/-- Embedding of the redaction sequence of formatRsp in
src/src/SuperagentAdapter.ts (lines 129-170): the blanket Authorization
rule, then the verification-token rule. -/
def redactHeadersAdapter (s : String) : String :=
  scanReplace matchVerifToken "verification-token: TOKEN HIDDEN"
    (scanReplace matchAuthAny "Authorization: TOKEN HIDDEN" s)

/-- JavaScript truthiness of an optional string property: present and not
the empty string. -/
def strTruthy : Option String → Bool
  | some s => s != ""
  | none => false

/-- Embedding of obfuscate in src/src/HttpReq.ts (lines 678-689): fixedArgs
is an alias of args, so the replacement of truthy access_key and password
fields mutates the argument object itself; the pair returned here is the
function result together with the argument object as the caller sees it
after the call — both are the updated object. -/
def obfuscateHttpReq (args : List (String × String)) :
    List (String × String) × List (String × String) :=
  let a1 := if strTruthy (objGet args "access_key")
            then objSet args "access_key" "ACCESS KEY HIDDEN" else args
  let a2 := if strTruthy (objGet a1 "password")
            then objSet a1 "password" "PASSWORD HIDDEN" else a1
  (a2, a2)

/-- Embedding of obfuscate in src/src/SuperagentAdapter.ts (lines 89-100)
where fixedArgs is a shallow copy of args: the truthiness tests read the
original argument and the replacements go to the copy, so the argument
object is unchanged after the call. -/
def obfuscateAdapter (args : List (String × String)) :
    List (String × String) × List (String × String) :=
  let f1 := if strTruthy (objGet args "access_key")
            then objSet args "access_key" "ACCESS KEY HIDDEN" else args
  let f2 := if strTruthy (objGet args "password")
            then objSet f1 "password" "PASSWORD HIDDEN" else f1
  (f2, args)

/-- Model of the replacement of literal backslash-n sequences by real
newlines that formatRsp applies to the request block when a body is
present. -/
def replaceBackslashN : List Char → List Char
  | [] => []
  | '\\' :: 'n' :: rest => '\n' :: replaceBackslashN rest
  | c :: rest => c :: replaceBackslashN rest

/-- The pair of formatted request and response strings formatRsp builds. -/
structure FormattedPair where
  req : String
  rsp : String
deriving DecidableEq

/-- Embedding of formatRsp (src/src/HttpReq.ts lines 715-761) for a call
whose headers are a flat string map, whose optional body is a flat string
map, and whose response body is a string: stringifies and strips the
headers, applies the HttpReq redaction rules, prepends the method and url
line, appends the JSON of the obfuscated body when one is present (then
rewrites literal backslash-n), and renders the response section. The second
component is the body object as the caller sees it after the call: the
obfuscation aliases it, so it is the obfuscated object. -/
def formatRspHttpReq (method url : String) (header : List (String × String))
    (bodyData : Option (List (String × String))) (status : Nat) (rspBody : String) :
    FormattedPair × Option (List (String × String)) :=
  let headers1 : String := ⟨stripPunctAux (jsonStringifyFlat4 header).data⟩
  let headers2 := redactHeadersHttpReq headers1
  let req0 := method ++ " " ++ url ++ "\n" ++ headers2
  let rsp := "RESPONSE: " ++ toString status ++ "\n" ++ jsonQuote rspBody
  match bodyData with
  | some b =>
    let ob := obfuscateHttpReq b
    (⟨⟨replaceBackslashN (req0 ++ "\n" ++ jsonStringifyFlat4 ob.1).data⟩, rsp⟩, some ob.2)
  | none => (⟨req0, rsp⟩, none)

/-- Embedding of formatRsp in src/src/SuperagentAdapter.ts (lines 129-170):
identical shape, with the blanket Authorization redaction and the
copy-based obfuscation, so the second component is the unchanged caller
body. -/
def formatRspAdapter (method url : String) (header : List (String × String))
    (bodyData : Option (List (String × String))) (status : Nat) (rspBody : String) :
    FormattedPair × Option (List (String × String)) :=
  let headers1 : String := ⟨stripPunctAux (jsonStringifyFlat4 header).data⟩
  let headers2 := redactHeadersAdapter headers1
  let req0 := method ++ " " ++ url ++ "\n" ++ headers2
  let rsp := "RESPONSE: " ++ toString status ++ "\n" ++ jsonQuote rspBody
  match bodyData with
  | some b =>
    let ob := obfuscateAdapter b
    (⟨⟨replaceBackslashN (req0 ++ "\n" ++ jsonStringifyFlat4 ob.1).data⟩, rsp⟩, some ob.2)
  | none => (⟨req0, rsp⟩, none)

/-- Embedding of logRequest (src/src/HttpReq.ts lines 697-708): the start
timestamp banner, the request block, the response block and the elapsed
time banner, joined by newlines. The timestamp string and the elapsed
milliseconds come from the clock and are parameters. -/
def logRequest (pair : FormattedPair) (startIso : String) (msec : Nat) : String :=
  joinSep "\n"
    ["::: " ++ startIso ++ " :::", pair.req, pair.rsp,
     "::: Response Time: " ++ toString msec ++ "ms :::"] ++ "\n"

end HttpReqModel

namespace HttpReqModel

/-- Rebuilding a string from its character list gives the string back. -/
lemma mk_data (s : String) : String.mk s.data = s := by cases s; rfl

/-- Character class used to state the redaction theorems: printable,
not a JSON metacharacter (quote, backslash), not one of the characters the
strip regex consumes (comma, braces), and not a colon up to case folding,
so that no header regex can start inside the value. -/
def authValChar (c : Char) : Bool :=
  decide (32 ≤ c.toNat) && c != '"' && c != '\\' && c != ',' && c != '{'
    && c != '}' && c.toLower != ':'

/-- Unpacking of the character class. -/
lemma authValChar_facts (c : Char) (h : authValChar c = true) :
    32 ≤ c.toNat ∧ c ≠ '"' ∧ c ≠ '\\' ∧ c ≠ ',' ∧ c ≠ '{' ∧ c ≠ '}' ∧ c.toLower ≠ ':' := by
  simp only [authValChar, Bool.and_eq_true, decide_eq_true_eq, bne_iff_ne] at h
  tauto

/-- A class character needs no JSON escaping. -/
lemma jsonEscapeChar_keep (c : Char) (h : authValChar c = true) : jsonEscapeChar c = [c] := by
  obtain ⟨h32, hq, hbs, _, _, _, _⟩ := authValChar_facts c h
  have h8 : c ≠ '\x08' := by intro hh; subst hh; simp at h32
  have ht : c ≠ '\t' := by intro hh; subst hh; simp at h32
  have hn : c ≠ '\n' := by intro hh; subst hh; simp at h32
  have hf : c ≠ '\x0c' := by intro hh; subst hh; simp at h32
  have hr : c ≠ '\r' := by intro hh; subst hh; simp at h32
  simp [jsonEscapeChar, hq, hbs, h8, ht, hn, hf, hr, Nat.not_lt.mpr h32]

/-- A list of class characters is unchanged by JSON escaping. -/
lemma jsonEscapeList_keep (l : List Char) (h : ∀ c ∈ l, authValChar c = true) :
    (l.map jsonEscapeChar).flatten = l := by
  induction l with
  | nil => rfl
  | cons c cs ih =>
    simp only [List.map_cons, List.flatten_cons]
    rw [jsonEscapeChar_keep c (h c (by simp)), ih (fun c' hc' => h c' (by simp [hc']))]
    rfl

/-- A string of class characters is unchanged by JSON escaping. -/
lemma jsonEscape_keep (x : String) (hx : x.data.all authValChar = true) : jsonEscape x = x := by
  show String.mk ((x.data.map jsonEscapeChar).flatten) = x
  rw [jsonEscapeList_keep x.data (by simpa [List.all_eq_true] using hx)]

/-- JSON escaping distributes over concatenation. -/
lemma jsonEscape_append (a b : String) :
    jsonEscape (a ++ b) = jsonEscape a ++ jsonEscape b := by
  show String.mk (((a ++ b).data.map jsonEscapeChar).flatten) = _
  rw [String.data_append, List.map_append, List.flatten_append]
  rfl

/-- The JSON of a single-header object with the Authorization key, as a
character list, once the value needs no escaping. -/
lemma jsonAuth_data (v : String) (hv : jsonEscape v = v) :
    (jsonStringifyFlat4 [("Authorization", v)]).data
      = "\x7b\n    \"Authorization\": \"".data ++ (v.data ++ "\"\n\x7d".data) := by
  have h2 : jsonStringifyFlat4 [("Authorization", v)]
      = "\x7b\n" ++ ("    " ++ jsonQuote "Authorization" ++ ": "
          ++ ("\"" ++ jsonEscape v ++ "\"")) ++ "\n\x7d" := rfl
  rw [h2, hv]
  simp only [String.data_append, List.append_assoc]
  rfl

/-- A character kept by the strip scan steps through it. -/
lemma strip_cons_keep (c : Char) (r : List Char)
    (h1 : c ≠ '"') (h2 : c ≠ ',') (h3 : c ≠ '{') (h4 : c ≠ '\n') :
    stripPunctAux (c :: r) = c :: stripPunctAux r := by
  rw [stripPunctAux.eq_def]
  split <;> simp_all

/-- The strip scan passes over a block of class characters. -/
lemma stripPunctAux_append_keep (l r : List Char)
    (h : ∀ c ∈ l, authValChar c = true) :
    stripPunctAux (l ++ r) = l ++ stripPunctAux r := by
  induction l with
  | nil => rfl
  | cons c cs ih =>
    obtain ⟨h32, hq, _, hcm, hbr, _, _⟩ := authValChar_facts c (h c (by simp))
    have hn : c ≠ '\n' := by intro hh; subst hh; simp at h32
    rw [List.cons_append, strip_cons_keep c _ hq hcm hbr hn,
      ih (fun c' hc' => h c' (by simp [hc']))]
    rfl

/-- The stripped header block of a single Authorization header. -/
lemma strip_auth_data (v : String) (hall : ∀ c ∈ v.data, authValChar c = true) :
    stripPunctAux ("\x7b\n    \"Authorization\": \"".data ++ (v.data ++ "\"\n\x7d".data))
      = "    Authorization: ".data ++ v.data := by
  calc stripPunctAux ("\x7b\n    \"Authorization\": \"".data ++ (v.data ++ "\"\n\x7d".data))
      = "    Authorization: ".data ++ stripPunctAux (v.data ++ "\"\n\x7d".data) := rfl
    _ = "    Authorization: ".data ++ (v.data ++ stripPunctAux "\"\n\x7d".data) := by
        rw [stripPunctAux_append_keep v.data _ hall]
    _ = "    Authorization: ".data ++ v.data := by
        rw [show stripPunctAux "\"\n\x7d".data = ([] : List Char) from rfl]
        simp

/-- The scan leaves the empty list unchanged for every fuel. -/
lemma scanReplaceFuel_nil (m : List Char → Option (List Char)) (r : List Char) (f : Nat) :
    scanReplaceFuel m r f [] = [] := by
  cases f <;> rfl

/-- One scan step over a position where the matcher fails. -/
lemma scanFuel_step_none (m : List Char → Option (List Char)) (repl : List Char)
    (f : Nat) (c : Char) (cs : List Char) (h : m (c :: cs) = none) :
    scanReplaceFuel m repl (f + 1) (c :: cs) = c :: scanReplaceFuel m repl f cs := by
  show (match m (c :: cs) with
        | some rest => repl ++ scanReplaceFuel m repl f rest
        | none => c :: scanReplaceFuel m repl f cs) = c :: scanReplaceFuel m repl f cs
  rw [h]

/-- Characters of a class string never start a newline stop, so the
to-end-of-line drop removes everything. -/
lemma dropWhile_nl_nil (l : List Char) (h : ∀ c ∈ l, authValChar c = true) :
    l.dropWhile (fun c => c != '\n') = [] := by
  rw [List.dropWhile_eq_nil_iff]
  intro c hc
  obtain ⟨h32, _⟩ := authValChar_facts c (h c hc)
  simp only [bne_iff_ne, ne_eq]
  intro hh
  subst hh
  simp at h32

/-- Dropping a while-block keeps only original members. -/
lemma mem_of_mem_dropWhile (p : Char → Bool) (l : List Char) (c : Char)
    (h : c ∈ l.dropWhile p) : c ∈ l := by
  induction l with
  | nil => simpa [List.dropWhile] using h
  | cons a as ih =>
    rw [List.dropWhile_cons] at h
    by_cases hp : p a = true
    · simp only [hp, if_true] at h
      exact List.mem_cons_of_mem _ (ih h)
    · simp only [hp] at h
      simpa using h

/-- The adapter matcher continuation on a class value is empty. -/
lemma dropWhile_ws_nl_nil (v : List Char) (h : ∀ c ∈ v, authValChar c = true) :
    (v.dropWhile isJsWS).dropWhile (fun c => c != '\n') = [] :=
  dropWhile_nl_nil _ (fun c hc => h c (mem_of_mem_dropWhile _ _ _ hc))

/-- The case-insensitive matcher fails on input free of colons when the
pattern contains one. -/
lemma ciMatch_none_colon (pat : List Char) :
    ∀ (l : List Char), ':' ∈ pat → (∀ c ∈ l, c.toLower ≠ ':') →
      ciMatch pat l = none := by
  induction pat with
  | nil => intro l h; simp at h
  | cons p ps ih =>
    intro l hp hl
    cases l with
    | nil => rfl
    | cons c cs =>
      show (if p.toLower = c.toLower then ciMatch ps cs else none) = none
      by_cases hpc : p.toLower = c.toLower
      · rw [if_pos hpc]
        rcases List.mem_cons.mp hp with h1 | h2
        · exfalso
          apply hl c (by simp)
          rw [← hpc, ← h1]
          decide
        · exact ih cs h2 (fun c' hc' => hl c' (List.mem_cons_of_mem _ hc'))
      · rw [if_neg hpc]

/-- The scheme matchers fail everywhere inside a colon-free block. -/
lemma matchAuthScheme_none (scheme l : List Char) (hl : ∀ c ∈ l, c.toLower ≠ ':') :
    matchAuthScheme scheme l = none := by
  rw [matchAuthScheme, ciMatch_none_colon _ _ (by decide) hl]

lemma matchAuthAny_none (l : List Char) (hl : ∀ c ∈ l, c.toLower ≠ ':') :
    matchAuthAny l = none := by
  rw [matchAuthAny, ciMatch_none_colon _ _ (by decide) hl]
  rfl

lemma matchVerifToken_none (l : List Char) (hl : ∀ c ∈ l, c.toLower ≠ ':') :
    matchVerifToken l = none := by
  rw [matchVerifToken, ciMatch_none_colon _ _ (by decide) hl]

/-- The scan is the identity on a block where the matcher fails at every
position, given enough fuel. -/
lemma scanFuel_id (m : List Char → Option (List Char)) (repl : List Char) :
    ∀ (l : List Char) (f : Nat),
      (∀ c cs, (c :: cs) <:+ l → m (c :: cs) = none) → l.length ≤ f →
      scanReplaceFuel m repl f l = l := by
  intro l
  induction l with
  | nil => intro f _ _; exact scanReplaceFuel_nil m repl f
  | cons c cs ih =>
    intro f hm hf
    obtain ⟨f', rfl⟩ : ∃ f', f = f' + 1 := ⟨f - 1, by simp at hf; omega⟩
    rw [scanFuel_step_none m repl f' c cs (hm c cs (List.suffix_refl _)),
      ih f' (fun c' cs' hs => hm c' cs' (hs.trans (List.suffix_cons c cs)))
        (by simp at hf; omega)]

end HttpReqModel

namespace HttpReqModel

/-- The Basic redaction scan on the stripped single-header line replaces
everything from the header name to the end of the line with the fixed
placeholder. -/
lemma scanFuel_basic (x : String) (f : Nat)
    (hdrop : x.data.dropWhile (fun c => c != '\n') = []) :
    scanReplaceFuel (matchAuthScheme "basic".data)
        "Authorization: Basic TOKEN HIDDEN".data (f + 5)
        ("    Authorization: Basic ".data ++ x.data)
      = "    Authorization: Basic TOKEN HIDDEN".data := by
  calc scanReplaceFuel (matchAuthScheme "basic".data)
        "Authorization: Basic TOKEN HIDDEN".data (f + 5)
        ("    Authorization: Basic ".data ++ x.data)
      = ' ' :: ' ' :: ' ' :: ' ' ::
          ("Authorization: Basic TOKEN HIDDEN".data
            ++ scanReplaceFuel (matchAuthScheme "basic".data)
                "Authorization: Basic TOKEN HIDDEN".data f
                (x.data.dropWhile (fun c => c != '\n'))) := rfl
    _ = ' ' :: ' ' :: ' ' :: ' ' ::
          ("Authorization: Basic TOKEN HIDDEN".data
            ++ scanReplaceFuel (matchAuthScheme "basic".data)
                "Authorization: Basic TOKEN HIDDEN".data f []) := by rw [hdrop]
    _ = "    Authorization: Basic TOKEN HIDDEN".data := by
        rw [scanReplaceFuel_nil]
        rfl

/-- The Bearer redaction scan on the stripped single-header line. -/
lemma scanFuel_bearer (x : String) (f : Nat)
    (hdrop : x.data.dropWhile (fun c => c != '\n') = []) :
    scanReplaceFuel (matchAuthScheme "bearer".data)
        "Authorization: Bearer TOKEN HIDDEN".data (f + 5)
        ("    Authorization: Bearer ".data ++ x.data)
      = "    Authorization: Bearer TOKEN HIDDEN".data := by
  calc scanReplaceFuel (matchAuthScheme "bearer".data)
        "Authorization: Bearer TOKEN HIDDEN".data (f + 5)
        ("    Authorization: Bearer ".data ++ x.data)
      = ' ' :: ' ' :: ' ' :: ' ' ::
          ("Authorization: Bearer TOKEN HIDDEN".data
            ++ scanReplaceFuel (matchAuthScheme "bearer".data)
                "Authorization: Bearer TOKEN HIDDEN".data f
                (x.data.dropWhile (fun c => c != '\n'))) := rfl
    _ = ' ' :: ' ' :: ' ' :: ' ' ::
          ("Authorization: Bearer TOKEN HIDDEN".data
            ++ scanReplaceFuel (matchAuthScheme "bearer".data)
                "Authorization: Bearer TOKEN HIDDEN".data f []) := by rw [hdrop]
    _ = "    Authorization: Bearer TOKEN HIDDEN".data := by
        rw [scanReplaceFuel_nil]
        rfl

/-- The Basic scan leaves a Bearer header line unchanged: the scheme does
not match on the line itself, and a colon-free value admits no match. -/
lemma scanFuel_basic_on_bearer (x : String)
    (hc : ∀ c ∈ x.data, c.toLower ≠ ':') :
    scanReplaceFuel (matchAuthScheme "basic".data)
        "Authorization: Basic TOKEN HIDDEN".data (x.data.length + 26)
        ("    Authorization: Bearer ".data ++ x.data)
      = "    Authorization: Bearer ".data ++ x.data := by
  calc scanReplaceFuel (matchAuthScheme "basic".data)
        "Authorization: Basic TOKEN HIDDEN".data (x.data.length + 26)
        ("    Authorization: Bearer ".data ++ x.data)
      = "    Authorization: Bearer ".data
          ++ scanReplaceFuel (matchAuthScheme "basic".data)
              "Authorization: Basic TOKEN HIDDEN".data x.data.length x.data := rfl
    _ = "    Authorization: Bearer ".data ++ x.data := by
        rw [scanFuel_id _ _ x.data x.data.length
          (fun c cs hs => matchAuthScheme_none _ _
            (fun c' hc' => hc c' (hs.subset hc')))
          (le_refl _)]

/-- The blanket Authorization scan on the stripped single-header line. -/
lemma scanFuel_authAny (v : String) (f : Nat)
    (hdrop : (v.data.dropWhile isJsWS).dropWhile (fun c => c != '\n') = []) :
    scanReplaceFuel matchAuthAny "Authorization: TOKEN HIDDEN".data (f + 5)
        ("    Authorization: ".data ++ v.data)
      = "    Authorization: TOKEN HIDDEN".data := by
  calc scanReplaceFuel matchAuthAny "Authorization: TOKEN HIDDEN".data (f + 5)
        ("    Authorization: ".data ++ v.data)
      = ' ' :: ' ' :: ' ' :: ' ' ::
          ("Authorization: TOKEN HIDDEN".data
            ++ scanReplaceFuel matchAuthAny "Authorization: TOKEN HIDDEN".data f
                ((v.data.dropWhile isJsWS).dropWhile (fun c => c != '\n'))) := rfl
    _ = ' ' :: ' ' :: ' ' :: ' ' ::
          ("Authorization: TOKEN HIDDEN".data
            ++ scanReplaceFuel matchAuthAny "Authorization: TOKEN HIDDEN".data f []) := by
        rw [hdrop]
    _ = "    Authorization: TOKEN HIDDEN".data := by
        rw [scanReplaceFuel_nil]
        rfl

end HttpReqModel

namespace HttpReqModel

/-- Full HttpReq redaction of a stripped Basic authorization line. -/
lemma redactHttpReq_basic_line (x : String)
    (hall : ∀ c ∈ x.data, authValChar c = true) :
    redactHeadersHttpReq (String.mk ("    Authorization: Basic ".data ++ x.data))
      = "    Authorization: Basic TOKEN HIDDEN" := by
  have hdrop := dropWhile_nl_nil x.data hall
  have h1 : scanReplace (matchAuthScheme "basic".data) "Authorization: Basic TOKEN HIDDEN"
      (String.mk ("    Authorization: Basic ".data ++ x.data))
      = "    Authorization: Basic TOKEN HIDDEN" := by
    show String.mk (scanReplaceFuel (matchAuthScheme "basic".data)
        "Authorization: Basic TOKEN HIDDEN".data
        ("    Authorization: Basic ".data ++ x.data).length
        ("    Authorization: Basic ".data ++ x.data)) = _
    rw [show ("    Authorization: Basic ".data ++ x.data).length = x.data.length + 20 + 5 by
      rw [List.length_append, show ("    Authorization: Basic ".data).length = 25 from rfl]
      omega]
    rw [scanFuel_basic x (x.data.length + 20) hdrop]
  show scanReplace matchVerifToken "verification-token: TOKEN HIDDEN"
      (scanReplace (matchAuthScheme "bearer".data) "Authorization: Bearer TOKEN HIDDEN"
        (scanReplace (matchAuthScheme "basic".data) "Authorization: Basic TOKEN HIDDEN"
          (String.mk ("    Authorization: Basic ".data ++ x.data)))) = _
  rw [h1]
  rfl

/-- Full HttpReq redaction of a stripped Bearer authorization line. -/
lemma redactHttpReq_bearer_line (x : String)
    (hall : ∀ c ∈ x.data, authValChar c = true) :
    redactHeadersHttpReq (String.mk ("    Authorization: Bearer ".data ++ x.data))
      = "    Authorization: Bearer TOKEN HIDDEN" := by
  have hcolon : ∀ c ∈ x.data, c.toLower ≠ ':' :=
    fun c hc => (authValChar_facts c (hall c hc)).2.2.2.2.2.2
  have hdrop := dropWhile_nl_nil x.data hall
  have h0 : scanReplace (matchAuthScheme "basic".data) "Authorization: Basic TOKEN HIDDEN"
      (String.mk ("    Authorization: Bearer ".data ++ x.data))
      = String.mk ("    Authorization: Bearer ".data ++ x.data) := by
    show String.mk (scanReplaceFuel (matchAuthScheme "basic".data)
        "Authorization: Basic TOKEN HIDDEN".data
        ("    Authorization: Bearer ".data ++ x.data).length
        ("    Authorization: Bearer ".data ++ x.data)) = _
    rw [show ("    Authorization: Bearer ".data ++ x.data).length = x.data.length + 26 by
      rw [List.length_append, show ("    Authorization: Bearer ".data).length = 26 from rfl]
      omega]
    rw [scanFuel_basic_on_bearer x hcolon]
  have h1 : scanReplace (matchAuthScheme "bearer".data) "Authorization: Bearer TOKEN HIDDEN"
      (String.mk ("    Authorization: Bearer ".data ++ x.data))
      = "    Authorization: Bearer TOKEN HIDDEN" := by
    show String.mk (scanReplaceFuel (matchAuthScheme "bearer".data)
        "Authorization: Bearer TOKEN HIDDEN".data
        ("    Authorization: Bearer ".data ++ x.data).length
        ("    Authorization: Bearer ".data ++ x.data)) = _
    rw [show ("    Authorization: Bearer ".data ++ x.data).length = x.data.length + 21 + 5 by
      rw [List.length_append, show ("    Authorization: Bearer ".data).length = 26 from rfl]
      omega]
    rw [scanFuel_bearer x (x.data.length + 21) hdrop]
  show scanReplace matchVerifToken "verification-token: TOKEN HIDDEN"
      (scanReplace (matchAuthScheme "bearer".data) "Authorization: Bearer TOKEN HIDDEN"
        (scanReplace (matchAuthScheme "basic".data) "Authorization: Basic TOKEN HIDDEN"
          (String.mk ("    Authorization: Bearer ".data ++ x.data)))) = _
  rw [h0, h1]
  rfl

/-- Full adapter redaction of a stripped authorization line with any class
value. -/
lemma redactAdapter_line (v : String)
    (hall : ∀ c ∈ v.data, authValChar c = true) :
    redactHeadersAdapter (String.mk ("    Authorization: ".data ++ v.data))
      = "    Authorization: TOKEN HIDDEN" := by
  have hdrop := dropWhile_ws_nl_nil v.data hall
  have h1 : scanReplace matchAuthAny "Authorization: TOKEN HIDDEN"
      (String.mk ("    Authorization: ".data ++ v.data))
      = "    Authorization: TOKEN HIDDEN" := by
    show String.mk (scanReplaceFuel matchAuthAny "Authorization: TOKEN HIDDEN".data
        ("    Authorization: ".data ++ v.data).length
        ("    Authorization: ".data ++ v.data)) = _
    rw [show ("    Authorization: ".data ++ v.data).length = v.data.length + 14 + 5 by
      rw [List.length_append, show ("    Authorization: ".data).length = 19 from rfl]
      omega]
    rw [scanFuel_authAny v (v.data.length + 14) hdrop]
  show scanReplace matchVerifToken "verification-token: TOKEN HIDDEN"
      (scanReplace matchAuthAny "Authorization: TOKEN HIDDEN"
        (String.mk ("    Authorization: ".data ++ v.data))) = _
  rw [h1]
  rfl

/-- Overwriting twice at the same key keeps only the last value. -/
lemma objSet_objSet_same (o : List (String × α)) (k : String) (v w : α) :
    objSet (objSet o k v) k w = objSet o k w := by
  induction o with
  | nil => simp [objSet]
  | cons p rest ih =>
    obtain ⟨k0, v0⟩ := p
    by_cases h : k0 = k
    · simp [objSet, h]
    · simp [objSet, h, ih]

/-- The final overwrite at a key erases any earlier value there, also
through an intermediate write at a different key. -/
lemma objSet_through_indep (o : List (String × α)) (k k2 : String)
    (p q hv w : α) (hne : k2 ≠ k) :
    objSet (objSet (objSet o k p) k2 hv) k w
      = objSet (objSet (objSet o k q) k2 hv) k w := by
  induction o with
  | nil =>
    simp [objSet, hne, Ne.symm hne]
  | cons e rest ih =>
    obtain ⟨k0, v0⟩ := e
    by_cases h0 : k0 = k
    · simp [objSet, h0, Ne.symm hne]
    · by_cases h2 : k0 = k2
      · subst h2
        simp only [objSet, if_neg h0, if_pos rfl, if_neg (Ne.symm hne)]
        rw [objSet_objSet_same, objSet_objSet_same]
      · simp [objSet, h0, h2, ih]

end HttpReqModel

namespace HttpReqModel

/-- Obfuscation of a body whose password field holds a truthy value does
not depend on that value. -/
lemma obfuscateHttpReq_password_indep (b : List (String × String)) (p q : String)
    (hp : p ≠ "") (hq : q ≠ "") :
    obfuscateHttpReq (objSet b "password" p) = obfuscateHttpReq (objSet b "password" q) := by
  simp only [obfuscateHttpReq]
  rw [objGet_objSet_ne b "password" "access_key" p (by decide),
    objGet_objSet_ne b "password" "access_key" q (by decide)]
  by_cases T : strTruthy (objGet b "access_key") = true
  · rw [if_pos T, if_pos T,
      objGet_objSet_ne _ "access_key" "password" _ (by decide),
      objGet_objSet_ne _ "access_key" "password" _ (by decide),
      objGet_objSet_self, objGet_objSet_self,
      if_pos (show strTruthy (some p) = true by simp [strTruthy, hp]),
      if_pos (show strTruthy (some q) = true by simp [strTruthy, hq]),
      objSet_through_indep b "password" "access_key" p q "ACCESS KEY HIDDEN"
        "PASSWORD HIDDEN" (by decide)]
  · rw [if_neg T, if_neg T, objGet_objSet_self, objGet_objSet_self,
      if_pos (show strTruthy (some p) = true by simp [strTruthy, hp]),
      if_pos (show strTruthy (some q) = true by simp [strTruthy, hq]),
      objSet_objSet_same, objSet_objSet_same]

/-- Obfuscation of a body whose access_key field holds a truthy value does
not depend on that value. -/
lemma obfuscateHttpReq_accesskey_indep (b : List (String × String)) (p q : String)
    (hp : p ≠ "") (hq : q ≠ "") :
    obfuscateHttpReq (objSet b "access_key" p)
      = obfuscateHttpReq (objSet b "access_key" q) := by
  simp only [obfuscateHttpReq]
  rw [objGet_objSet_self, objGet_objSet_self,
    if_pos (show strTruthy (some p) = true by simp [strTruthy, hp]),
    if_pos (show strTruthy (some q) = true by simp [strTruthy, hq]),
    objSet_objSet_same, objSet_objSet_same]

/-- Obfuscation replaces a truthy password with the fixed placeholder. -/
lemma obfuscateHttpReq_password_hidden (b : List (String × String)) (p : String)
    (hp : p ≠ "") :
    objGet (obfuscateHttpReq (objSet b "password" p)).1 "password"
      = some "PASSWORD HIDDEN" := by
  simp only [obfuscateHttpReq]
  rw [objGet_objSet_ne b "password" "access_key" p (by decide)]
  by_cases T : strTruthy (objGet b "access_key") = true
  · rw [if_pos T,
      objGet_objSet_ne _ "access_key" "password" _ (by decide),
      objGet_objSet_self,
      if_pos (show strTruthy (some p) = true by simp [strTruthy, hp])]
    exact objGet_objSet_self _ _ _
  · rw [if_neg T, objGet_objSet_self,
      if_pos (show strTruthy (some p) = true by simp [strTruthy, hp])]
    exact objGet_objSet_self _ _ _

/-- Obfuscation replaces a truthy access key with the fixed placeholder. -/
lemma obfuscateHttpReq_accesskey_hidden (b : List (String × String)) (p : String)
    (hp : p ≠ "") :
    objGet (obfuscateHttpReq (objSet b "access_key" p)).1 "access_key"
      = some "ACCESS KEY HIDDEN" := by
  simp only [obfuscateHttpReq]
  rw [objGet_objSet_self, if_pos (show strTruthy (some p) = true by simp [strTruthy, hp]),
    objSet_objSet_same]
  by_cases T : strTruthy (objGet (objSet b "access_key" "ACCESS KEY HIDDEN") "password") = true
  · rw [if_pos T, objGet_objSet_ne _ "password" "access_key" _ (by decide)]
    exact objGet_objSet_self _ _ _
  · rw [if_neg T]
    exact objGet_objSet_self _ _ _

/-- The adapter obfuscation also replaces a truthy password with the fixed
placeholder in its returned copy. -/
lemma obfuscateAdapter_password_hidden (b : List (String × String)) (p : String)
    (hp : p ≠ "") :
    objGet (obfuscateAdapter (objSet b "password" p)).1 "password"
      = some "PASSWORD HIDDEN" := by
  simp only [obfuscateAdapter]
  rw [show objGet (objSet b "password" p) "password" = some p from objGet_objSet_self _ _ _,
    if_pos (show strTruthy (some p) = true by simp [strTruthy, hp])]
  exact objGet_objSet_self _ _ _

end HttpReqModel

namespace HttpReqClaims

open HttpReqModel

set_option maxRecDepth 8000 in
/-- C6 counterexample: a logged request whose Authorization header value
carries no Basic or Bearer scheme, together with a password body field, is
formatted by the HttpReq formatter with the Authorization value appearing
verbatim in the emitted log text and no Authorization placeholder, so the
claim that the log never contains the original sensitive values is false
as stated. -/
theorem redaction_claim_counterexample :
    ("SECRETXYZ".data <:+:
      (logRequest (formatRspHttpReq "POST" "https://api.test.com/login"
          [("Authorization", "SECRETXYZ")]
          (some [("password", "secret123")]) 200 "ok").1
        "2026-01-01T00:00:00.000Z" 5).data) ∧
    ¬ ("TOKEN HIDDEN".data <:+:
      (logRequest (formatRspHttpReq "POST" "https://api.test.com/login"
          [("Authorization", "SECRETXYZ")]
          (some [("password", "secret123")]) 200 "ok").1
        "2026-01-01T00:00:00.000Z" 5).data) := by
  constructor <;> decide

/-- C6 amended: body fields named password and access_key with truthy
values are always replaced by their fixed placeholders, and the formatted
output does not depend on the original values; Authorization header values
are fully redacted by the adapter formatter for any value, but by the
HttpReq formatter only when the value carries a Basic or Bearer scheme —
a schemeless value appears verbatim. Header values are quantified over the
class of printable characters free of JSON metacharacters and colons. -/
theorem redaction_amended :
    (∀ x : String, x.data.all authValChar = true →
       ∀ (m u rb : String) (st : Nat),
         (formatRspHttpReq m u [("Authorization", "Basic " ++ x)] none st rb).1.req
           = m ++ " " ++ u ++ "\n" ++ "    Authorization: Basic TOKEN HIDDEN") ∧
    (∀ x : String, x.data.all authValChar = true →
       ∀ (m u rb : String) (st : Nat),
         (formatRspHttpReq m u [("Authorization", "Bearer " ++ x)] none st rb).1.req
           = m ++ " " ++ u ++ "\n" ++ "    Authorization: Bearer TOKEN HIDDEN") ∧
    (∀ v : String, v.data.all authValChar = true →
       ∀ (m u rb : String) (st : Nat),
         (formatRspAdapter m u [("Authorization", v)] none st rb).1.req
           = m ++ " " ++ u ++ "\n" ++ "    Authorization: TOKEN HIDDEN") ∧
    (redactHeadersHttpReq
        (String.mk (stripPunctAux (jsonStringifyFlat4 [("Authorization", "SECRETXYZ")]).data))
      = "    Authorization: SECRETXYZ") ∧
    (∀ (m u : String) (hdr b : List (String × String)) (p q : String)
        (st : Nat) (rb : String), p ≠ "" → q ≠ "" →
       formatRspHttpReq m u hdr (some (objSet b "password" p)) st rb
         = formatRspHttpReq m u hdr (some (objSet b "password" q)) st rb) ∧
    (∀ (b : List (String × String)) (p : String), p ≠ "" →
       objGet (obfuscateHttpReq (objSet b "password" p)).1 "password"
         = some "PASSWORD HIDDEN") ∧
    (∀ (m u : String) (hdr b : List (String × String)) (p q : String)
        (st : Nat) (rb : String), p ≠ "" → q ≠ "" →
       formatRspHttpReq m u hdr (some (objSet b "access_key" p)) st rb
         = formatRspHttpReq m u hdr (some (objSet b "access_key" q)) st rb) ∧
    (∀ (b : List (String × String)) (p : String), p ≠ "" →
       objGet (obfuscateHttpReq (objSet b "access_key" p)).1 "access_key"
         = some "ACCESS KEY HIDDEN") ∧
    (∀ (b : List (String × String)) (p : String), p ≠ "" →
       objGet (obfuscateAdapter (objSet b "password" p)).1 "password"
         = some "PASSWORD HIDDEN") := by
  refine ⟨?_, ?_, ?_, by decide, ?_, ?_, ?_, ?_, ?_⟩
  · intro x hx m u rb st
    have hall : ∀ c ∈ x.data, authValChar c = true := by
      simpa [List.all_eq_true] using hx
    have hv : jsonEscape ("Basic " ++ x) = "Basic " ++ x := by
      rw [jsonEscape_append, jsonEscape_keep x hx]
      rfl
    have hallBx : ∀ c ∈ ("Basic " ++ x).data, authValChar c = true := by
      intro c hc
      rw [String.data_append] at hc
      rcases List.mem_append.mp hc with h1 | h2
      · exact (show ∀ c ∈ "Basic ".data, authValChar c = true by decide) c h1
      · exact hall c h2
    have hjson := jsonAuth_data ("Basic " ++ x) hv
    have hstrip := strip_auth_data ("Basic " ++ x) hallBx
    show m ++ " " ++ u ++ "\n"
        ++ redactHeadersHttpReq (String.mk (stripPunctAux
            (jsonStringifyFlat4 [("Authorization", "Basic " ++ x)]).data))
      = m ++ " " ++ u ++ "\n" ++ "    Authorization: Basic TOKEN HIDDEN"
    rw [hjson, hstrip]
    show m ++ " " ++ u ++ "\n"
        ++ redactHeadersHttpReq (String.mk ("    Authorization: Basic ".data ++ x.data)) = _
    rw [redactHttpReq_basic_line x hall]
  · intro x hx m u rb st
    have hall : ∀ c ∈ x.data, authValChar c = true := by
      simpa [List.all_eq_true] using hx
    have hv : jsonEscape ("Bearer " ++ x) = "Bearer " ++ x := by
      rw [jsonEscape_append, jsonEscape_keep x hx]
      rfl
    have hallBx : ∀ c ∈ ("Bearer " ++ x).data, authValChar c = true := by
      intro c hc
      rw [String.data_append] at hc
      rcases List.mem_append.mp hc with h1 | h2
      · exact (show ∀ c ∈ "Bearer ".data, authValChar c = true by decide) c h1
      · exact hall c h2
    have hjson := jsonAuth_data ("Bearer " ++ x) hv
    have hstrip := strip_auth_data ("Bearer " ++ x) hallBx
    show m ++ " " ++ u ++ "\n"
        ++ redactHeadersHttpReq (String.mk (stripPunctAux
            (jsonStringifyFlat4 [("Authorization", "Bearer " ++ x)]).data))
      = m ++ " " ++ u ++ "\n" ++ "    Authorization: Bearer TOKEN HIDDEN"
    rw [hjson, hstrip]
    show m ++ " " ++ u ++ "\n"
        ++ redactHeadersHttpReq (String.mk ("    Authorization: Bearer ".data ++ x.data)) = _
    rw [redactHttpReq_bearer_line x hall]
  · intro v hv0 m u rb st
    have hall : ∀ c ∈ v.data, authValChar c = true := by
      simpa [List.all_eq_true] using hv0
    have hv : jsonEscape v = v := jsonEscape_keep v hv0
    have hjson := jsonAuth_data v hv
    have hstrip := strip_auth_data v hall
    show m ++ " " ++ u ++ "\n"
        ++ redactHeadersAdapter (String.mk (stripPunctAux
            (jsonStringifyFlat4 [("Authorization", v)]).data))
      = m ++ " " ++ u ++ "\n" ++ "    Authorization: TOKEN HIDDEN"
    rw [hjson, hstrip, redactAdapter_line v hall]
  · intro m u hdr b p q st rb hp hq
    have h := obfuscateHttpReq_password_indep b p q hp hq
    simp only [formatRspHttpReq]
    rw [h]
  · exact obfuscateHttpReq_password_hidden
  · intro m u hdr b p q st rb hp hq
    have h := obfuscateHttpReq_accesskey_indep b p q hp hq
    simp only [formatRspHttpReq]
    rw [h]
  · exact obfuscateHttpReq_accesskey_hidden
  · exact obfuscateAdapter_password_hidden

/-- Witness instantiating the amended redaction theorem at concrete
inputs: a Bearer header is redacted by the HttpReq formatter, any value by
the adapter formatter, and a password body value is replaced. -/
theorem redaction_amended_witness :
    ("abc123".data.all authValChar = true) ∧
    (formatRspHttpReq "GET" "https://h" [("Authorization", "Bearer " ++ "abc123")]
        none 200 "ok").1.req
      = "GET" ++ " " ++ "https://h" ++ "\n" ++ "    Authorization: Bearer TOKEN HIDDEN" ∧
    (formatRspAdapter "GET" "https://h" [("Authorization", "tok")] none 200 "ok").1.req
      = "GET" ++ " " ++ "https://h" ++ "\n" ++ "    Authorization: TOKEN HIDDEN" ∧
    objGet (obfuscateHttpReq (objSet [] "password" "hunter2")).1 "password"
      = some "PASSWORD HIDDEN" :=
  ⟨by decide,
   redaction_amended.2.1 "abc123" (by decide) "GET" "https://h" "ok" 200,
   redaction_amended.2.2.1 "tok" (by decide) "GET" "https://h" "ok" 200,
   redaction_amended.2.2.2.2.2.1 [] "hunter2" (by decide)⟩

/-- C9: evaluation of the logging path at the failing input. The HttpReq
obfuscation aliases the caller body, so after a successful POST whose body
held a password the caller object carries the placeholder instead of the
original value; the adapter obfuscation copies and leaves the caller body
unchanged. -/
theorem body_mutation_at_failing_input :
    (obfuscateHttpReq [("username", "bob"), ("password", "secret123")]).2
      = [("username", "bob"), ("password", "PASSWORD HIDDEN")] ∧
    (formatRspHttpReq "POST" "https://api.test.com/login"
        [("Content-Type", "application/json")]
        (some [("username", "bob"), ("password", "secret123")]) 200 "ok").2
      = some [("username", "bob"), ("password", "PASSWORD HIDDEN")] ∧
    (obfuscateAdapter [("username", "bob"), ("password", "secret123")]).2
      = [("username", "bob"), ("password", "secret123")] := by
  refine ⟨by decide, by decide, by decide⟩

end HttpReqClaims
